import Mathlib

/-!
Verification of the `lambda_zip` packaging pipeline.

This file gives a shallow embedding, in Lean 4, of the core logic of the
`lambda_zip` repository (`src/lambda_zip/__init__.py`,
`src/lambda_zip/aws_lambda_layer.py`, `src/lambda_zip/aws_lambda_layer_version.py`)
and proves or refutes the behavioural claims stated about it.

Modelling conventions:
* Python byte strings are `List Nat` (each element a byte value `< 256`).
* `hashlib.sha256` is modelled by an executable SHA-256 over byte lists;
  `hasher.update` calls are modelled by concatenating the fed byte stream.
* Python `dict`s are association lists in insertion order, with
  overwrite-in-place semantics for repeated keys.
* Python sets are duplicate-free lists; iteration order of a set is the
  insertion order of our model (Python leaves it unspecified).
* Exceptions (`KeyError`, `AttributeError`, `ValueError`, ...) are modelled
  with `Except`.
* `Path` objects versus `str` objects matter for set membership in
  `install_to_dir` (Python's `Path('/a') == '/a'` is `False`), so the
  installed-set elements are tagged with their Python type (`PyVal`).
-/

namespace LambdaZip

/-! ### SHA-256 over byte lists (model of `hashlib.sha256`) -/

/-- Truncate to a 32-bit word. -/
def mod32 (x : Nat) : Nat := x % 4294967296

/-- Rotate a 32-bit word right by `n` bits (for `x < 2^32`, `0 < n < 32`). -/
def rotr32 (n x : Nat) : Nat := x / 2 ^ n + x % 2 ^ n * 2 ^ (32 - n)

def shaCh (x y z : Nat) : Nat := (x &&& y) ^^^ ((x ^^^ 4294967295) &&& z)

def shaMaj (x y z : Nat) : Nat := (x &&& y) ^^^ (x &&& z) ^^^ (y &&& z)

def bigSigma0 (x : Nat) : Nat := rotr32 2 x ^^^ rotr32 13 x ^^^ rotr32 22 x

def bigSigma1 (x : Nat) : Nat := rotr32 6 x ^^^ rotr32 11 x ^^^ rotr32 25 x

def smallSigma0 (x : Nat) : Nat := rotr32 7 x ^^^ rotr32 18 x ^^^ x / 2 ^ 3

def smallSigma1 (x : Nat) : Nat := rotr32 17 x ^^^ rotr32 19 x ^^^ x / 2 ^ 10

/-- The SHA-256 round constants (decimal). -/
def sha256K : List Nat :=
  [1116352408, 1899447441, 3049323471, 3921009573, 961987163,
   1508970993, 2453635748, 2870763221, 3624381080, 310598401,
   607225278, 1426881987, 1925078388, 2162078206, 2614888103,
   3248222580, 3835390401, 4022224774, 264347078, 604807628,
   770255983, 1249150122, 1555081692, 1996064986, 2554220882,
   2821834349, 2952996808, 3210313671, 3336571891, 3584528711,
   113926993, 338241895, 666307205, 773529912, 1294757372,
   1396182291, 1695183700, 1986661051, 2177026350, 2456956037,
   2730485921, 2820302411, 3259730800, 3345764771, 3516065817,
   3600352804, 4094571909, 275423344, 430227734, 506948616,
   659060556, 883997877, 958139571, 1322822218, 1537002063,
   1747873779, 1955562222, 2024104815, 2227730452, 2361852424,
   2428436474, 2756734187, 3204031479, 3329325298]

/-- The SHA-256 initial hash state (decimal). -/
def sha256H0 : List Nat :=
  [1779033703, 3144134277, 1013904242, 2773480762,
   1359893119, 2600822924, 528734635, 1541459225]

/-- Big-endian byte rendering of `val` on `n` bytes. -/
def beBytes (n val : Nat) : List Nat :=
  (List.range n).reverse.map (fun i => val / 2 ^ (8 * i) % 256)

/-- SHA-256 message padding: `0x80`, zero bytes, then the 64-bit bit length. -/
def sha256Pad (msg : List Nat) : List Nat :=
  let L := msg.length
  let k := (64 - (L + 9) % 64) % 64
  msg ++ [128] ++ List.replicate k 0 ++ beBytes 8 (8 * L)

/-- Split a byte list into 64-byte blocks. -/
def chunks64 (l : List Nat) : List (List Nat) :=
  if h : l = [] then []
  else l.take 64 :: chunks64 (l.drop 64)
termination_by l.length
decreasing_by
  have hpos : 0 < l.length := List.length_pos.mpr h
  simp only [List.length_drop]
  omega

/-- The 16 big-endian 32-bit words of a 64-byte block. -/
def wordsOfBlock (b : List Nat) : List Nat :=
  (List.range 16).map (fun i =>
    b.getD (4 * i) 0 * 16777216 + b.getD (4 * i + 1) 0 * 65536 +
    b.getD (4 * i + 2) 0 * 256 + b.getD (4 * i + 3) 0)

/-- Extend the 16 message words to the 64-entry message schedule. -/
def sha256Schedule (ws : List Nat) : List Nat :=
  (List.range 48).foldl
    (fun w _ =>
      w ++ [mod32 (smallSigma1 (w.getD (w.length - 2) 0) + w.getD (w.length - 7) 0 +
                   smallSigma0 (w.getD (w.length - 15) 0) + w.getD (w.length - 16) 0)])
    ws

/-- One SHA-256 compression round on the 8-word working state. -/
def sha256Round (k w : Nat) (st : List Nat) : List Nat :=
  match st with
  | [a, b, c, d, e, f, g, h] =>
    let t1 := mod32 (h + bigSigma1 e + shaCh e f g + k + w)
    let t2 := mod32 (bigSigma0 a + shaMaj a b c)
    [mod32 (t1 + t2), a, b, c, mod32 (d + t1), e, f, g]
  | _ => st

/-- Compress one 64-byte block into the running hash state. -/
def sha256Block (h : List Nat) (block : List Nat) : List Nat :=
  let w := sha256Schedule (wordsOfBlock block)
  let st := (sha256K.zip w).foldl (fun st kw => sha256Round kw.1 kw.2 st) h
  List.zipWith (fun x y => mod32 (x + y)) h st

/-- SHA-256 digest (32 bytes) of a byte list. -/
def sha256 (msg : List Nat) : List Nat :=
  ((chunks64 (sha256Pad msg)).foldl sha256Block sha256H0).foldr
    (fun w acc => beBytes 4 w ++ acc) []

/-! ### Association-list lookup (model of `dict` / first-match search by key) -/

/-- First value stored under key `n` in an association list. -/
def pairLookup {β : Type} : List (String × β) → String → Option β
  | [], _ => none
  | p :: l, n => if p.1 == n then some p.2 else pairLookup l n

/-- Python `s.startswith(pre)`. -/
def pyStartsWith (s pre : String) : Bool := pre.data.isPrefixOf s.data

/-- Python `s.endswith(suf)`. -/
def pyEndsWith (s suf : String) : Bool := suf.data.isSuffixOf s.data

/-- Python string comparison: lexicographic over the code-point
sequences (the order used by `sorted(...)` and by
`json.dumps(sort_keys=True)`). -/
def keyLe (a b : String) : Prop := a.data ≤ b.data

instance : DecidableRel keyLe := fun a b => (inferInstance : Decidable (a.data ≤ b.data))

instance : IsTotal String keyLe := ⟨fun a b => le_total a.data b.data⟩

instance : IsTrans String keyLe := ⟨fun _ _ _ h1 h2 => le_trans h1 h2⟩

instance : IsAntisymm String keyLe :=
  ⟨fun a b h1 h2 => by
    cases a with
    | mk da =>
      cases b with
      | mk db => exact congrArg String.mk (le_antisymm h1 h2)⟩

/-- Python `sorted(...)` on a list of strings. -/
def pySorted (l : List String) : List String := List.insertionSort keyLe l

/-! ### The layer ZIP fingerprint (`NewAwsLambdaLayerZip.__init__`, lines 153-166)

A ZIP member has a name, content bytes and a per-member modification
timestamp.  The fingerprint never reads the timestamp; it feeds the UTF-8
bytes of each member name followed by the member's content bytes into a
SHA-256 accumulator, iterating over `sorted(self.zip_namelist)` and skipping
names ending in `.pyc` and the name `lambda_zip_metadata.yml`. -/

structure ZipMember where
  name : String
  content : List Nat
  mtime : Nat
deriving DecidableEq, Repr

/-- Model of `zf.open(zipped_filename)` followed by reading all content:
the content of the first member carrying that name.  (The names passed in
come from the member list itself, so the default branch is never used.) -/
def zfOpen : List ZipMember → String → List Nat
  | [], _ => []
  | m :: zf, n => if m.name == n then m.content else zfOpen zf n

/-- UTF-8 bytes of a string (`bytes(zipped_filename, 'utf-8')`). -/
def utf8Bytes (s : String) : List Nat := s.toUTF8.toList.map UInt8.toNat

/-- The byte stream fed to `hasher.update` by `NewAwsLambdaLayerZip.__init__`:
iterate over the sorted name list, skip `.pyc` members and
`lambda_zip_metadata.yml`, and feed name bytes then content bytes.
(Streaming the content in 1 MiB buffers feeds the same bytes.) -/
def fingerprintFedBytes (zf : List ZipMember) : List Nat :=
  (pySorted (zf.map (fun m => m.name))).foldl
    (fun acc n =>
      if pyEndsWith n ".pyc" || n == "lambda_zip_metadata.yml" then acc
      else acc ++ utf8Bytes n ++ zfOpen zf n)
    []

/-- `self.sha256_digest`: the SHA-256 digest of the fed byte stream. -/
def sha256_digest (zf : List ZipMember) : List Nat := sha256 (fingerprintFedBytes zf)

/-! ### `create_zip_file` (lines 352-404)

`create_zip_file` first executes `os.chdir(tmp_dir)` — mutating the
process-wide working directory and never restoring it — then walks the
(new) current directory, skipping a file when its relative path equals one
of `zip_omit_exact_names` or when some compiled regex of
`zip_omit_patterns` *search*-matches it (`regex.search`, i.e. the pattern
matches starting at *some* position of the string, not a full match).

A compiled regex is modelled by its core extent matcher
`core : List Char → Bool` (does the pattern match exactly this substring);
`reSearch` closes it under "match anywhere in the string". -/

/-- `regex.search` semantics: the core matcher accepts some contiguous
substring of `s` (at any start position, of any length). -/
def reSearch (core : List Char → Bool) (s : List Char) : Bool :=
  (List.range (s.length + 1)).any (fun i =>
    (List.range (s.length + 1 - i)).any (fun n => core ((s.drop i).take n)))

/-- The process-wide state touched by `os.chdir`. -/
structure ProcState where
  cwd : String
deriving DecidableEq, Repr

structure ZipResult where
  procAfter : ProcState
  members : List String
  zippedFileCount : Nat
  omittedFileCount : Nat
deriving Repr

/-- The per-file body of the `os.walk` loop: either count the file as
omitted (exact-name match, else some regex search-match) or append it to
the archive and count it as zipped. -/
def zipStep (zip_omit_exact_names : List String) (zip_omit_patterns : List (List Char → Bool))
    (acc : List String × Nat × Nat) (file_relative_path : String) : List String × Nat × Nat :=
  if zip_omit_exact_names.any (fun e => e == file_relative_path) then
    (acc.1, acc.2.1, acc.2.2 + 1)
  else if zip_omit_patterns.any (fun r => reSearch r file_relative_path.toList) then
    (acc.1, acc.2.1, acc.2.2 + 1)
  else
    (acc.1 ++ [file_relative_path], acc.2.1 + 1, acc.2.2)

/-- Model of `create_zip_file`.  `walkFiles d` is the list of
forward-slash relative paths of the files `os.walk` discovers under
directory `d`; it is consulted at the *current working directory*, which
the function has just changed to `tmp_dir`. -/
def create_zip_file (proc : ProcState) (tmp_dir : String) (walkFiles : String → List String)
    (zip_omit_exact_names : List String) (zip_omit_patterns : List (List Char → Bool)) :
    ZipResult :=
  let proc := { proc with cwd := tmp_dir }
  let r := (walkFiles proc.cwd).foldl (zipStep zip_omit_exact_names zip_omit_patterns) ([], 0, 0)
  { procAfter := proc, members := r.1, zippedFileCount := r.2.1, omittedFileCount := r.2.2 }

/-! ### `install_to_dir` (lines 455-497) and `invoke_pip_install` (lines 499-544)

`local_deps_already_installed` is a process-wide Python `set` that only
ever receives `str(...)` values, while the manifest's sibling paths are
collected as `Path` objects; `Path('/a') == '/a'` is `False` in Python, so
the two kinds never compare equal.  `PyVal` records the runtime type of a
set element so the embedding reproduces exactly that comparison. -/

inductive PyVal
  | path (s : String)
  | str (s : String)
deriving DecidableEq, Repr

/-- Python `==` between set elements: `Path == Path` and `str == str`
compare the underlying text; `Path == str` is always `False`. -/
def pyEq : PyVal → PyVal → Bool
  | .path a, .path b => a == b
  | .str a, .str b => a == b
  | _, _ => false

/-- `str(...)` of a `Path` or of a string. -/
def pvStr : PyVal → String
  | .path s => s
  | .str s => s

/-- `Path(local_dep_dir, sub_dep)`: an absolute second argument wins,
otherwise the two are joined.  (No `..` normalisation is performed.) -/
def pathJoin (root sub : String) : String :=
  if pyStartsWith sub "/" then sub else root ++ "/" ++ sub

/-- Add to a Python set of `PyVal`s (no-op when an equal element exists). -/
def pySetAdd (s : List PyVal) (v : PyVal) : List PyVal :=
  if s.any (fun w => pyEq w v) then s else s ++ [v]

/-- Add to a Python set of strings. -/
def strSetAdd (s : List String) (v : String) : List String :=
  if s.any (fun w => w == v) then s else s ++ [v]

/-- The `[lambda_zip]` table of a parsed `pyproject.toml`. -/
structure LambdaZipSection where
  zip_omit : List String
  local_dependency : List String
deriving DecidableEq, Repr

/-- A parsed `pyproject.toml` (`'lambda_zip' in dep_data` may fail). -/
structure Manifest where
  lambdaZip : Option LambdaZipSection
deriving DecidableEq, Repr

/-- Process-wide state mutated by `install_to_dir`, plus the trace of
`invoke_pip_install` calls: for each call, the package argument and
whether `install_dependencies` was true (no `--no-deps` flag, so pip also
materialises the package's third-party dependencies). -/
structure InstallSt where
  local_deps_already_installed : List PyVal
  zip_omit : List String
  pipCalls : List (String × Bool)
deriving DecidableEq, Repr

inductive InstallErr
  | valueError (dir : String)
  | recursionError
deriving DecidableEq, Repr

/-- `invoke_pip_install(target_dir=dst_dir, packages=[...], install_dependencies=...)`:
recorded in the trace. -/
def invoke_pip_install (st : InstallSt) (package : String) (install_dependencies : Bool) :
    InstallSt :=
  { st with pipCalls := st.pipCalls ++ [(package, install_dependencies)] }

/-! Model of `install_to_dir`.  `env` maps a directory to its parsed
`pyproject.toml` (or `none` when opening/parsing fails, which raises
`ValueError`).  The `Nat` fuel models Python's recursion limit
(`RecursionError` when exhausted; every claim is settled with ample fuel).

Faithful details: `sub_deps` is a set of `Path` objects built with
`Path(local_dep_dir, sub_dep).absolute()`; `sub_deps_unresolved` is the set
difference `sub_deps - local_deps_already_installed` computed once, under
Python equality (`pyEq`); each recursive call passes no
`install_dependencies` argument, so it defaults to `True`; after each
recursive call and after the final pip call, `str(...)` values are added
to `local_deps_already_installed`. -/

/-- The first half of one `install_to_dir` invocation: merge the
manifest's `zip_omit` patterns into the process-wide set and, when
`install_dependencies` is set, run the sibling-dependency loop (with
`rec` standing for the recursive `install_to_dir` call, which passes no
`install_dependencies` argument and therefore uses the default `True`). -/
def install_to_dir_step1
    (rec : String → Bool → InstallSt → Except InstallErr InstallSt)
    (local_dep_dir : String) (install_dependencies : Bool) (st : InstallSt)
    (dep_data : Manifest) : Except InstallErr InstallSt :=
  match dep_data.lambdaZip with
  | none => .ok st
  | some lz =>
    let stA := { st with zip_omit := lz.zip_omit.foldl strSetAdd st.zip_omit }
    if install_dependencies then
      let sub_deps := lz.local_dependency.foldl
        (fun acc sd => pySetAdd acc (.path (pathJoin local_dep_dir sd))) []
      let sub_deps_unresolved := sub_deps.filter
        (fun p => ! stA.local_deps_already_installed.any (fun q => pyEq p q))
      sub_deps_unresolved.foldlM
        (fun stB sub_dep =>
          (rec (pvStr sub_dep) true stB).map
            (fun stC =>
              { stC with local_deps_already_installed :=
                  pySetAdd stC.local_deps_already_installed (.str (pvStr sub_dep)) }))
        stA
    else .ok stA

def install_to_dir_succ_body (env : String → Option Manifest)
    (rec : String → Bool → InstallSt → Except InstallErr InstallSt)
    (local_dep_dir : String) (install_dependencies : Bool) (st : InstallSt) :
    Except InstallErr InstallSt :=
  match env local_dep_dir with
  | none => .error (.valueError local_dep_dir)
  | some dep_data =>
    match install_to_dir_step1 rec local_dep_dir install_dependencies st dep_data with
    | .error e => .error e
    | .ok st1 =>
      let st2 := invoke_pip_install st1 local_dep_dir install_dependencies
      .ok { st2 with local_deps_already_installed :=
              pySetAdd st2.local_deps_already_installed (.str local_dep_dir) }

/-- `install_to_dir`, by fuel recursion (the recursive call in the
sibling loop passes one unit less fuel; `install_to_dir_succ_body` holds
the body of one invocation, with `rec` standing for the recursive call). -/
def install_to_dir (env : String → Option Manifest) (fuel : Nat) :
    String → Bool → InstallSt → Except InstallErr InstallSt :=
  Nat.rec (motive := fun _ => String → Bool → InstallSt → Except InstallErr InstallSt)
    (fun _ _ _ => .error .recursionError)
    (fun _ rec => install_to_dir_succ_body env rec)
    fuel

/-! ### Layer versions (`aws_lambda_layer_version.py`, `aws_lambda_layer.py`)

A layer version's `Description` holds (at best) a JSON object.  `json.loads`
either raises (modelled `JsonDesc.parseFail`) or yields the parsed object
(`JsonDesc.obj`, an association list of string keys and JSON scalars). -/

inductive JVal
  | s (v : String)
  | n (v : Int)
  | b (v : Bool)
deriving DecidableEq, Repr

inductive JsonDesc
  | parseFail
  | obj (fields : List (String × JVal))
deriving DecidableEq, Repr

inductive PyErr
  | keyError (k : String)
  | attributeError
deriving DecidableEq, Repr

structure AwsLambdaLayerVersion where
  Version : Nat
  Description : JsonDesc
  CreatedDate : String
  CompatibleRuntimes : List String
  LicenseInfo : String
  CompatibleArchitectures : List String
deriving DecidableEq, Repr

/-- `AwsLambdaLayerVersion.metadata_required_fields`. -/
def metadata_required_fields : List String :=
  ["branch", "commit", "describe", "dirty", "sha256b64", "untracked"]

/-- `get_description_encoded_metadata` (lines 69-96): when `json.loads`
raises, a warning is logged and `None` is returned.  When it succeeds,
missing required fields are only logged with `logger.error`; the parsed
object is stored and returned regardless. -/
def get_description_encoded_metadata (v : AwsLambdaLayerVersion) :
    Option (List (String × JVal)) :=
  match v.Description with
  | .parseFail => none
  | .obj fields => some fields

/-- `get_metadata_sha256b64`: returns `None` when there is no
description-encoded metadata, and otherwise evaluates
`metadata['sha256b64']` — which raises `KeyError` when the parsed object
has no such key. -/
def get_metadata_sha256b64 (v : AwsLambdaLayerVersion) : Except PyErr (Option JVal) :=
  match get_description_encoded_metadata v with
  | none => .ok none
  | some metadata =>
    match pairLookup metadata "sha256b64" with
    | some x => .ok (some x)
    | none => .error (.keyError "sha256b64")

/-- Python `search_val == m` where `search_val` is a `str` and `m` is the
value returned by `get_metadata_sha256b64`: equality holds only for an
equal string; `str == None` and `str ==` non-string are `False`. -/
def pyEqStrOpt (search_val : String) : Option JVal → Bool
  | some (.s v) => search_val == v
  | _ => false

/-- `AwsLambdaLayer.get_highest_version_matching_sha256b64` (lines 67-78):
iterate over `available_versions.items()` in insertion order, overwrite
`candidate_match` on every version whose metadata SHA-256 equals
`search_val`, return the final candidate.  Exceptions raised while reading
a version's metadata propagate (there is no try/except here). -/
def get_highest_version_matching_sha256b64
    (available_versions : List (Nat × AwsLambdaLayerVersion)) (search_val : String) :
    Except PyErr (Option AwsLambdaLayerVersion) :=
  available_versions.foldlM
    (fun candidate_match kv =>
      (get_metadata_sha256b64 kv.2).map
        (fun m => if pyEqStrOpt search_val m then some kv.2 else candidate_match))
    none

/-- Whether a version is a fingerprint match in the sense of the scan loop:
its metadata read succeeds and yields the searched string. -/
def version_matches (v : AwsLambdaLayerVersion) (sha : String) : Bool :=
  match get_metadata_sha256b64 v with
  | .ok m => pyEqStrOpt sha m
  | .error _ => false

/-! ### `AwsLambdaLayer.get_lambda_layer` (lines 26-56) -/

structure AwsLambdaLayer where
  name : String
  available_versions : List (Nat × AwsLambdaLayerVersion)
  highest_version : Option AwsLambdaLayerVersion
  Version : Nat
  Description : JsonDesc
  CreatedDate : String
  CompatibleRuntimes : List String
  LicenseInfo : String
  CompatibleArchitectures : List String
deriving DecidableEq, Repr

/-- `dict` insertion keyed by version number: an existing key is
overwritten in place, a new key is appended. -/
def dictInsertVersion (d : List (Nat × AwsLambdaLayerVersion)) (k : Nat)
    (v : AwsLambdaLayerVersion) : List (Nat × AwsLambdaLayerVersion) :=
  if d.any (fun p => p.1 == k) then d.map (fun p => if p.1 == k then (k, v) else p)
  else d ++ [(k, v)]

/-- Body of the double loop over paginator pages and their `LayerVersions`:
record the version in `available_versions` and update `highest_version`
when it is `None` or has a strictly smaller `Version`. -/
def scanVersion (acc : List (Nat × AwsLambdaLayerVersion) × Option AwsLambdaLayerVersion)
    (lv : AwsLambdaLayerVersion) :
    List (Nat × AwsLambdaLayerVersion) × Option AwsLambdaLayerVersion :=
  (dictInsertVersion acc.1 lv.Version lv,
   match acc.2 with
   | none => some lv
   | some hv => if hv.Version < lv.Version then some lv else some hv)

/-- The highest-version tracking on its own (the second component of
`scanVersion`). -/
def maxStep (o : Option AwsLambdaLayerVersion) (lv : AwsLambdaLayerVersion) :
    Option AwsLambdaLayerVersion :=
  match o with
  | none => some lv
  | some hv => if hv.Version < lv.Version then some lv else some hv

/-- The double loop of `get_lambda_layer` over the paginator's pages and
each page's `LayerVersions`, starting from an empty `available_versions`
dict and `highest_version = None`. -/
def layer_scan (pages : List (List AwsLambdaLayerVersion)) :
    List (Nat × AwsLambdaLayerVersion) × Option AwsLambdaLayerVersion :=
  pages.foldl (fun acc page => page.foldl scanVersion acc) ([], none)

/-- Model of `get_lambda_layer`: `pages` is the paginated listing returned
by the registry.  After the scan, the fields of
`copy_fields_from_highest_version` are read off `highest_version` with
`getattr`; when no version was listed, `highest_version` is still `None`
and `getattr(None, 'Version')` raises `AttributeError`. -/
def get_lambda_layer (name : String) (pages : List (List AwsLambdaLayerVersion)) :
    Except PyErr AwsLambdaLayer :=
  match (layer_scan pages).2 with
  | none => .error .attributeError
  | some hv =>
    .ok { name := name, available_versions := (layer_scan pages).1,
          highest_version := some hv,
          Version := hv.Version, Description := hv.Description,
          CreatedDate := hv.CreatedDate, CompatibleRuntimes := hv.CompatibleRuntimes,
          LicenseInfo := hv.LicenseInfo,
          CompatibleArchitectures := hv.CompatibleArchitectures }

/-! ### The CLI de-duplication step (`cli_entry_point`, lines 650-657) -/

/-- What the layer branch of `cli_entry_point` does after building the
layer ZIP: either reuse an existing version (no upload, no publish) or
upload to S3 and publish one new version. -/
inductive LayerPublishOutcome
  | reuse (duplicate : AwsLambdaLayerVersion)
  | uploadAndPublish
deriving DecidableEq, Repr

/-- New layer versions created by an outcome. -/
def new_versions_created : LayerPublishOutcome → Nat
  | .reuse _ => 0
  | .uploadAndPublish => 1

/-- Uploads performed by an outcome. -/
def uploads_performed : LayerPublishOutcome → Nat
  | .reuse _ => 0
  | .uploadAndPublish => 1

/-- `if duplicate := layer.get_highest_version_matching_sha256b64(...):` —
an `AwsLambdaLayerVersion` object is truthy and `None` is falsy, so a
returned version is reused as-is and otherwise `upload_to_s3()` then
`publish()` run.  An exception from the scan propagates and aborts the run
before any upload or publish. -/
def cli_layer_dedup (available_versions : List (Nat × AwsLambdaLayerVersion))
    (sha256_b64digest : String) : Except PyErr LayerPublishOutcome :=
  (get_highest_version_matching_sha256b64 available_versions sha256_b64digest).map
    (fun dup =>
      match dup with
      | some duplicate => .reuse duplicate
      | none => .uploadAndPublish)

/-! ### Metadata and the description string (`update_metadata`,
`encode_metadata_for_description`, `git_get_metadata`, `get_builder_metadata`) -/

/-- Result of `git_get_metadata` (lines 436-453): `branch` and `describe`
are set inside `try`/`except` blocks and may be absent. -/
structure GitMetadata where
  branch : Option String
  commit : String
  describe : Option String
  dirty : Bool
  untracked : Nat
deriving DecidableEq, Repr

/-- Result of `get_builder_metadata` (lines 412-417). -/
structure BuilderMetadata where
  host : String
  timestamp : Int
  user : String
deriving DecidableEq, Repr

/-- The key/value pairs `git_get_metadata` stores, in insertion order. -/
def git_metadata_fields (g : GitMetadata) : List (String × JVal) :=
  (match g.branch with | some b => [("branch", JVal.s b)] | none => []) ++
  [("commit", JVal.s g.commit)] ++
  (match g.describe with | some d => [("describe", JVal.s d)] | none => []) ++
  [("dirty", JVal.b g.dirty), ("untracked", JVal.n (Int.ofNat g.untracked))]

/-- The key/value pairs `get_builder_metadata` stores, in insertion order. -/
def builder_metadata_fields (b : BuilderMetadata) : List (String × JVal) :=
  [("host", JVal.s b.host), ("timestamp", JVal.n b.timestamp), ("user", JVal.s b.user)]

/-- `dict.update`: each incoming pair overwrites an existing key in place
or is appended. -/
def dictUpdate (d : List (String × JVal)) (kvs : List (String × JVal)) :
    List (String × JVal) :=
  kvs.foldl
    (fun acc kv =>
      if acc.any (fun p => p.1 == kv.1) then acc.map (fun p => if p.1 == kv.1 then kv else p)
      else acc ++ [kv])
    d

/-- `NewAwsLambdaLayerZip.update_metadata` (lines 232-239): start from an
empty dict, merge the git metadata (skipped entirely when
`git_get_metadata` raised — `gitResult = none`), merge the builder
metadata (host, timestamp, user), then store the base64 fingerprint under
`'sha256b64'`. -/
def update_metadata (gitResult : Option GitMetadata) (builder : BuilderMetadata)
    (sha256_b64digest : String) : List (String × JVal) :=
  let m : List (String × JVal) := []
  let m := match gitResult with
    | some g => dictUpdate m (git_metadata_fields g)
    | none => m
  let m := dictUpdate m (builder_metadata_fields builder)
  dictUpdate m [("sha256b64", JVal.s sha256_b64digest)]

/-- JSON rendering of a scalar, as `json.dumps` produces it (our metadata
strings contain no characters needing escapes). -/
def dumpJVal : JVal → String
  | .s v => "\x22" ++ v ++ "\x22"
  | .n v => toString v
  | .b true => "true"
  | .b false => "false"

/-- `json.dumps(metadata, indent=None, separators=(',', ':'),
sort_keys=True)`: the keys in ascending order, each rendered as
`"key":value`, joined with `,` and wrapped in braces — no whitespace
anywhere. -/
def json_dumps_sorted (d : List (String × JVal)) : String :=
  "\x7b" ++ String.intercalate ","
    ((pySorted (d.map Prod.fst)).map
      (fun k => "\x22" ++ k ++ "\x22:" ++ dumpJVal ((pairLookup d k).getD (JVal.b false)))) ++
  "\x7d"

/-- `encode_metadata_for_description` (lines 183-192). -/
def encode_metadata_for_description (metadata : List (String × JVal)) : String :=
  json_dumps_sorted metadata

/-- The field list claimed by the specification for the description
object: the BuildMetadata git fields plus the fingerprint key. -/
def spec_claimed_description_fields : List String :=
  ["branch", "commit", "describe", "dirty", "untracked", "sha256b64"]

/-! ### Concrete inputs used to evaluate the code on specific scenarios -/

/-- The empty process state at the start of an invocation. -/
def installStInit : InstallSt :=
  { local_deps_already_installed := [], zip_omit := [], pipCalls := [] }

/-- A diamond of project manifests: `/top` declares the sibling projects
`/libA` and `/libB`, and each of those declares the same sibling
`/shared` (by absolute path, so both resolve to the identical string). -/
def envDiamond : String → Option Manifest := fun dir =>
  if dir == "/top" then
    some { lambdaZip := some { zip_omit := [], local_dependency := ["/libA", "/libB"] } }
  else if dir == "/libA" then
    some { lambdaZip := some { zip_omit := [], local_dependency := ["/shared"] } }
  else if dir == "/libB" then
    some { lambdaZip := some { zip_omit := [], local_dependency := ["/shared"] } }
  else if dir == "/shared" then
    some { lambdaZip := some { zip_omit := [], local_dependency := [] } }
  else none

/-- One project `/app` declaring a single sibling `/lib` with no further
dependencies. -/
def envPair : String → Option Manifest := fun dir =>
  if dir == "/app" then
    some { lambdaZip := some { zip_omit := [], local_dependency := ["/lib"] } }
  else if dir == "/lib" then
    some { lambdaZip := some { zip_omit := [], local_dependency := [] } }
  else none

/-- A description object holding complete metadata with fingerprint `sha`. -/
def fullDesc (sha : String) : JsonDesc :=
  .obj [("branch", JVal.s "main"), ("commit", JVal.s "c0ffee"),
        ("describe", JVal.s "v1-g1"), ("dirty", JVal.b false),
        ("sha256b64", JVal.s sha), ("untracked", JVal.n 0)]

/-- A layer version record with version number `ver` and fingerprint `sha`. -/
def mkVersion (ver : Nat) (sha : String) : AwsLambdaLayerVersion :=
  { Version := ver, Description := fullDesc sha, CreatedDate := "2024-01-0" ++ toString ver,
    CompatibleRuntimes := ["python3.12"], LicenseInfo := "MIT",
    CompatibleArchitectures := ["x86_64"] }

/-- A layer version whose description parses as a JSON object but lacks
the `sha256b64` field (and several other required metadata fields). -/
def versionMissingSha : AwsLambdaLayerVersion :=
  { Version := 2,
    Description := .obj [("branch", JVal.s "main"), ("commit", JVal.s "beef")],
    CreatedDate := "2024-01-02", CompatibleRuntimes := ["python3.12"],
    LicenseInfo := "MIT", CompatibleArchitectures := ["x86_64"] }

/-- An `available_versions` listing in which two versions match the
fingerprint `"X"` and the higher-numbered match is listed first (the
order the backing registry returns: newest first). -/
def avsDescending : List (Nat × AwsLambdaLayerVersion) :=
  [(5, mkVersion 5 "X"), (3, mkVersion 3 "X")]

/-- A listing containing an intact version and a version whose JSON
description lacks `sha256b64`. -/
def avsWithBroken : List (Nat × AwsLambdaLayerVersion) :=
  [(7, mkVersion 7 "Y"), (2, versionMissingSha)]

/-- A one-version listing matching fingerprint `"X"`. -/
def avsSingleMatch : List (Nat × AwsLambdaLayerVersion) :=
  [(1, mkVersion 1 "X")]

/-- Complete git metadata for a build. -/
def gitSample : GitMetadata :=
  { branch := some "main", commit := "c0ffee", describe := some "v1-g1",
    dirty := false, untracked := 0 }

/-- Builder metadata for a build. -/
def builderSample : BuilderMetadata :=
  { host := "buildhost", timestamp := 1700000000, user := "ci" }

/-! ## Shared lemmas -/

/-- Permutations of a string list have the same `pySorted` result. -/
theorem pySorted_eq_of_perm {l1 l2 : List String} (h : l1.Perm l2) :
    pySorted l1 = pySorted l2 :=
  List.eq_of_perm_of_sorted
    ((List.perm_insertionSort keyLe l1).trans (h.trans (List.perm_insertionSort keyLe l2).symm))
    (List.sorted_insertionSort keyLe l1) (List.sorted_insertionSort keyLe l2)

/-- Key lookup is permutation-invariant when the keys are duplicate-free. -/
theorem pairLookup_perm {β : Type} :
    ∀ {l1 l2 : List (String × β)}, l1.Perm l2 → (l1.map Prod.fst).Nodup →
      ∀ n, pairLookup l1 n = pairLookup l2 n := by
  intro l1 l2 h
  induction h with
  | nil => intro _ n; rfl
  | cons x h ih =>
    intro hnd n
    simp only [List.map_cons, List.nodup_cons] at hnd
    by_cases hx : (x.1 == n) = true
    · simp [pairLookup, hx]
    · simp only [pairLookup, hx, Bool.false_eq_true, if_false]
      exact ih hnd.2 n
  | swap x y l =>
    intro hnd n
    simp only [List.map_cons, List.nodup_cons, List.mem_cons] at hnd
    have hxy : y.1 ≠ x.1 := fun e => hnd.1 (Or.inl e)
    by_cases hy : (y.1 == n) = true
    · have hx : (x.1 == n) = false := by
        rcases eq_of_beq hy with rfl
        exact beq_eq_false_iff_ne.mpr fun e => hxy e.symm
      simp [pairLookup, hx, hy]
    · by_cases hx : (x.1 == n) = true
      · simp [pairLookup, hx, hy]
      · simp [pairLookup, hx, hy]
  | trans h1 h2 ih1 ih2 =>
    intro hnd n
    have hnd2 := ((h1.map Prod.fst).nodup_iff).mp hnd
    exact (ih1 hnd n).trans (ih2 hnd2 n)

/-- `zfOpen` is lookup-by-name over the (name, content) pairs. -/
theorem zfOpen_eq_pairLookup (zf : List ZipMember) (n : String) :
    zfOpen zf n = (pairLookup (zf.map (fun m => (m.name, m.content))) n).getD [] := by
  induction zf with
  | nil => rfl
  | cons m zf ih =>
    by_cases h : (m.name == n) = true
    · simp [zfOpen, pairLookup, h]
    · simp only [zfOpen, List.map_cons, pairLookup, h, Bool.false_eq_true, if_false]
      exact ih

/-! ## C3 — the fingerprint is a pure function of the sorted, filtered
member names and their contents -/

/-- C3: the fingerprint digest (computed by `NewAwsLambdaLayerZip.__init__`
over sorted member names, skipping `.pyc` members and
`lambda_zip_metadata.yml`, feeding UTF-8 name bytes then content bytes
into SHA-256) is invariant under any permutation of member insertion order
and any mutation of per-member timestamps, provided member names and
contents are unchanged: any two archives whose (name, content) pair
multisets agree — timestamps free — have equal digests. -/
theorem c3_fingerprint_pure (zf1 zf2 : List ZipMember)
    (hperm : (zf1.map (fun m => (m.name, m.content))).Perm
             (zf2.map (fun m => (m.name, m.content))))
    (hnd : (zf1.map (fun m => m.name)).Nodup) :
    sha256_digest zf1 = sha256_digest zf2 := by
  have hnames : (zf1.map (fun m => m.name)).Perm (zf2.map (fun m => m.name)) := by
    have := hperm.map Prod.fst
    simpa [List.map_map, Function.comp] using this
  have hnd1 : ((zf1.map (fun m => (m.name, m.content))).map Prod.fst).Nodup := by
    simpa [List.map_map, Function.comp] using hnd
  have hopen : ∀ n, zfOpen zf1 n = zfOpen zf2 n := by
    intro n
    rw [zfOpen_eq_pairLookup, zfOpen_eq_pairLookup, pairLookup_perm hperm hnd1 n]
  have hfed : fingerprintFedBytes zf1 = fingerprintFedBytes zf2 := by
    unfold fingerprintFedBytes
    rw [pySorted_eq_of_perm hnames]
    exact List.foldl_ext _ _ _ (fun acc n _ => by rw [hopen n])
  unfold sha256_digest
  rw [hfed]

/-- Witness for C3: reordering the two members and changing both
timestamps leaves the digest unchanged. -/
theorem c3_fingerprint_pure_witness :
    sha256_digest [⟨"b.txt", [2, 7], 5⟩, ⟨"a.txt", [1], 6⟩] =
    sha256_digest [⟨"a.txt", [1], 99⟩, ⟨"b.txt", [2, 7], 100⟩] :=
  c3_fingerprint_pure _ _ (by decide) (by decide)

/-! ## C4 — archive-walk exclusion semantics -/

/-- The folded walk loop produces exactly the discovered files that match
no exact exclusion name and no pattern. -/
theorem zipFold_members (ex : List String) (pats : List (List Char → Bool)) :
    ∀ (files : List String) (acc : List String × Nat × Nat),
      (files.foldl (zipStep ex pats) acc).1 =
        acc.1 ++ files.filter (fun f =>
          !(ex.any (fun e => e == f)) && !(pats.any (fun r => reSearch r f.toList))) := by
  intro files
  induction files with
  | nil => intro acc; simp
  | cons a files ih =>
    intro acc
    rw [List.foldl_cons, ih, List.filter_cons]
    unfold zipStep
    cases h1 : (ex.any fun e => e == a) with
    | true => simp
    | false =>
      cases h2 : (pats.any fun r => reSearch r a.toList) with
      | true => simp
      | false => simp

/-- C4: a file discovered by the walk of `create_zip_file` is omitted from
the archive iff its relative path equals some exact-exclusion name or some
compiled pattern search-matches it (matches anywhere in the string); with
empty pattern and exact-exclusion sets, every discovered file is
included. -/
theorem c4_exclusion_semantics (proc : ProcState) (tmp_dir : String)
    (walkFiles : String → List String) (ex : List String)
    (pats : List (List Char → Bool)) (f : String) :
    (f ∈ (create_zip_file proc tmp_dir walkFiles ex pats).members ↔
      f ∈ walkFiles tmp_dir ∧ ¬(∃ e ∈ ex, e = f) ∧
        ¬(∃ p ∈ pats, reSearch p f.toList = true))
  ∧ (ex = [] → pats = [] →
      (create_zip_file proc tmp_dir walkFiles ex pats).members = walkFiles tmp_dir) := by
  constructor
  · show f ∈ ((walkFiles tmp_dir).foldl (zipStep ex pats) ([], 0, 0)).1 ↔ _
    rw [zipFold_members, List.nil_append, List.mem_filter]
    simp only [Bool.and_eq_true, Bool.not_eq_true', List.any_eq_false, beq_iff_eq]
    constructor
    · rintro ⟨hmem, hex, hpat⟩
      exact ⟨hmem, fun ⟨e, he, hef⟩ => hex e he hef, fun ⟨p, hp, hr⟩ => hpat p hp hr⟩
    · rintro ⟨hmem, hex, hpat⟩
      exact ⟨hmem, fun e he hef => hex ⟨e, he, hef⟩, fun p hp hr => hpat ⟨p, hp, hr⟩⟩
  · rintro rfl rfl
    show ((walkFiles tmp_dir).foldl (zipStep [] []) ([], 0, 0)).1 = _
    rw [zipFold_members]
    simp

/-- Witness for C4: with an exclusion pattern that matches `"b"` anywhere
in the path, file `a/b.txt` is omitted while `a/c.txt` is kept; with no
exclusions everything is kept. -/
theorem c4_exclusion_semantics_witness :
    ("a/c.txt" ∈ (create_zip_file ⟨"/orig"⟩ "/stage"
        (fun _ => ["a/b.txt", "a/c.txt"]) []
        [fun cs => cs == ['b']]).members ∧
     "a/b.txt" ∉ (create_zip_file ⟨"/orig"⟩ "/stage"
        (fun _ => ["a/b.txt", "a/c.txt"]) []
        [fun cs => cs == ['b']]).members) ∧
    (create_zip_file ⟨"/orig"⟩ "/stage" (fun _ => ["a/b.txt", "a/c.txt"]) []
        []).members = ["a/b.txt", "a/c.txt"] := by
  refine ⟨⟨?_, ?_⟩, ?_⟩
  · exact (c4_exclusion_semantics ⟨"/orig"⟩ "/stage" (fun _ => ["a/b.txt", "a/c.txt"]) []
      [fun cs => cs == ['b']] "a/c.txt").1.mpr (by decide)
  · intro hmem
    have h := (c4_exclusion_semantics ⟨"/orig"⟩ "/stage" (fun _ => ["a/b.txt", "a/c.txt"]) []
      [fun cs => cs == ['b']] "a/b.txt").1.mp hmem
    exact absurd h (by decide)
  · exact (c4_exclusion_semantics ⟨"/orig"⟩ "/stage" (fun _ => ["a/b.txt", "a/c.txt"]) []
      [] "x").2 rfl rfl

/-! ## C9 — `create_zip_file` changes the working directory and never
restores it -/

/-- C9: `create_zip_file` sets the process-wide current working directory
to the staging directory `tmp_dir` and returns with it still set there
(when the caller's directory differed, it is not restored), and the
result — including the file walk — is computed entirely relative to
`tmp_dir`, independent of the caller's original working directory. -/
theorem c9_chdir_not_restored (proc proc2 : ProcState) (tmp_dir : String)
    (walkFiles : String → List String) (ex : List String)
    (pats : List (List Char → Bool)) :
    (create_zip_file proc tmp_dir walkFiles ex pats).procAfter.cwd = tmp_dir
  ∧ (proc.cwd ≠ tmp_dir →
      (create_zip_file proc tmp_dir walkFiles ex pats).procAfter.cwd ≠ proc.cwd)
  ∧ create_zip_file proc tmp_dir walkFiles ex pats =
      create_zip_file proc2 tmp_dir walkFiles ex pats := by
  refine ⟨rfl, ?_, rfl⟩
  intro hne h
  exact hne (h ▸ rfl)

/-- Witness for C9: starting from `/home/user`, after building the archive
the working directory is `/stage`, not `/home/user`. -/
theorem c9_chdir_not_restored_witness :
    (create_zip_file ⟨"/home/user"⟩ "/stage" (fun _ => []) [] []).procAfter.cwd = "/stage"
  ∧ (create_zip_file ⟨"/home/user"⟩ "/stage" (fun _ => []) [] []).procAfter.cwd ≠
      "/home/user" := by
  have h := c9_chdir_not_restored ⟨"/home/user"⟩ ⟨"/elsewhere"⟩ "/stage" (fun _ => []) [] []
  exact ⟨h.1, fun he => h.2.1 (by decide) (he.trans (by decide))⟩

/-! ## C1 — the shared-sibling deduplication does not hold

`local_deps_already_installed` only ever receives `str(...)` values, while
`sub_deps - local_deps_already_installed` subtracts them from a set of
`Path` objects; a `Path` never equals a `str` in Python, so the
subtraction removes nothing and a sibling declared by two projects is
recursed into — and pip-installed — twice. -/

/-- C1: evaluating `install_to_dir` on the diamond manifest configuration
(`/top` declares `/libA` and `/libB`; both declare the sibling `/shared`)
invokes the external installer *twice* for the distinct resolved root
`/shared`, refuting the at-most-once claim. -/
theorem c1_shared_sibling_installed_twice :
    (install_to_dir envDiamond 10 "/top" true installStInit).map
        (fun st => st.pipCalls.map Prod.fst) =
      .ok ["/shared", "/libA", "/shared", "/libB", "/top"] ∧
    (install_to_dir envDiamond 10 "/top" true installStInit).map
        (fun st => (st.pipCalls.map Prod.fst).count "/shared") = .ok 2 :=
  ⟨rfl, rfl⟩

/-! ## C8 — third-party dependencies are installed at every recursion
level, not only at the top

The recursive call `install_to_dir(dst_dir=dst_dir, local_dep_dir=sub_dep)`
passes no `install_dependencies` argument, so the parameter defaults to
`True` and the sibling's pip invocation runs *without* `--no-deps`,
materialising the sibling's third-party dependencies too. -/

/-- C8 counterexample: installing `/app` (which declares the sibling
`/lib`) with transitive installation enabled produces a pip call for
`/lib` whose `install_dependencies` flag is `true` — the sibling's
third-party package dependencies are materialised, contradicting the
claim that recursive installs never install them. -/
theorem c8_counterexample :
    (install_to_dir envPair 10 "/app" true installStInit).map (fun st => st.pipCalls) =
      .ok [("/lib", true), ("/app", true)] := rfl

/-- Unfolding `install_to_dir` at zero fuel. -/
theorem install_to_dir_zero (env : String → Option Manifest) (root : String) (b : Bool)
    (st : InstallSt) : install_to_dir env 0 root b st = .error .recursionError := rfl

/-- Unfolding `install_to_dir` at positive fuel. -/
theorem install_to_dir_succ (env : String → Option Manifest) (fuel : Nat) (root : String)
    (b : Bool) (st : InstallSt) :
    install_to_dir env (fuel + 1) root b st =
      install_to_dir_succ_body env (install_to_dir env fuel) root b st := rfl

/-- `Except`-valued left fold preserves an invariant preserved by each
successful step. -/
theorem foldlM_except_inv {σ α ε : Type} {P : σ → Prop} {f : σ → α → Except ε σ}
    (hf : ∀ s a s', P s → f s a = .ok s' → P s') :
    ∀ (l : List α) (s s'), P s → l.foldlM f s = .ok s' → P s' := by
  intro l
  induction l with
  | nil =>
    intro s s' hP h
    rw [List.foldlM_nil] at h
    cases h
    exact hP
  | cons a l ih =>
    intro s s' hP h
    rw [List.foldlM_cons] at h
    cases hfa : f s a with
    | error e => rw [hfa] at h; cases h
    | ok s2 =>
      rw [hfa] at h
      exact ih s2 s' (hf s a s2 hP hfa) h

/-- With `install_dependencies = False` there is no recursion: the only
pip call appended by a successful `install_to_dir` run is for the root
itself, with `--no-deps`. -/
theorem install_noDeps_trace (env : String → Option Manifest) (fuel : Nat) (root : String)
    (st st' : InstallSt) (h : install_to_dir env fuel root false st = .ok st') :
    st'.pipCalls = st.pipCalls ++ [(root, false)] := by
  cases fuel with
  | zero => cases h
  | succ fuel =>
    rw [install_to_dir_succ] at h
    unfold install_to_dir_succ_body at h
    split at h
    · cases h
    · split at h
      · cases h
      · rename_i st1 hs1
        cases h
        unfold install_to_dir_step1 at hs1
        split at hs1
        · cases hs1
          rfl
        · cases hs1
          rfl

/-- With `install_dependencies = True`, every pip call in the trace of a
successful `install_to_dir` run keeps third-party dependency installation
enabled: the sibling loop recurses with the default `True`, and the final
pip call for the root passes `True` as well. -/
theorem install_depsTrue_trace (env : String → Option Manifest) :
    ∀ (fuel : Nat) (root : String) (st st' : InstallSt),
      (∀ c ∈ st.pipCalls, c.2 = true) →
      install_to_dir env fuel root true st = .ok st' →
      ∀ c ∈ st'.pipCalls, c.2 = true := by
  intro fuel
  induction fuel with
  | zero => intro root st st' _ h; cases h
  | succ fuel ih =>
    intro root st st' hP h
    rw [install_to_dir_succ] at h
    unfold install_to_dir_succ_body at h
    split at h
    · cases h
    · -- the manifest parsed; case on the result of the first half
      split at h
      · cases h
      · rename_i st1 hs1
        cases h
        intro c hc
        simp only [invoke_pip_install, List.mem_append, List.mem_singleton] at hc
        rcases hc with hc | hc
        · -- `c` comes from `st1`: analyse how the first half produced it
          unfold install_to_dir_step1 at hs1
          split at hs1
          · cases hs1
            exact hP c hc
          · split at hs1
            · refine foldlM_except_inv (P := fun s => ∀ c ∈ s.pipCalls, c.2 = true)
                ?_ _ _ st1 hP hs1 c hc
              intro s a s2 hPs hstep1
              cases hrec : install_to_dir env fuel (pvStr a) true s with
              | error e => rw [hrec] at hstep1; cases hstep1
              | ok sC =>
                rw [hrec] at hstep1
                simp only [Except.map] at hstep1
                cases hstep1
                exact ih (pvStr a) s sC hPs hrec
            · rename_i hfalse
              exact absurd rfl hfalse
        · rw [hc]

/-- C8 (amended): third-party dependencies are controlled by the
`install_dependencies` flag at *every* level: with the flag off, no
recursion happens and the only pip call is for the root itself with
`--no-deps`; with the flag on, every pip call in the trace — including
those of recursively installed siblings, because the recursive call
leaves `install_dependencies` at its default `True` — runs with
third-party dependency installation enabled. -/
theorem c8_amended :
    (∀ (env : String → Option Manifest) (fuel : Nat) (root : String) (st st' : InstallSt),
      install_to_dir env fuel root false st = .ok st' →
        st'.pipCalls = st.pipCalls ++ [(root, false)])
  ∧ (∀ (env : String → Option Manifest) (fuel : Nat) (root : String) (st st' : InstallSt),
      (∀ c ∈ st.pipCalls, c.2 = true) →
      install_to_dir env fuel root true st = .ok st' →
        ∀ c ∈ st'.pipCalls, c.2 = true) :=
  ⟨fun env fuel root st st' h => install_noDeps_trace env fuel root st st' h,
   fun env fuel root st st' hP h => install_depsTrue_trace env fuel root st st' hP h⟩

/-- Witness for C8 (amended): with the flag off only `/app` is installed,
with `--no-deps`; with the flag on every pip call of the `/app` run has
dependencies enabled. -/
theorem c8_amended_witness :
    (∀ st', install_to_dir envPair 10 "/app" false installStInit = .ok st' →
      st'.pipCalls = [("/app", false)]) ∧
    (∀ st', install_to_dir envPair 10 "/app" true installStInit = .ok st' →
      ∀ c ∈ st'.pipCalls, c.2 = true) := by
  constructor
  · intro st' h
    have := c8_amended.1 envPair 10 "/app" installStInit st' h
    simpa using this
  · intro st' h
    exact c8_amended.2 envPair 10 "/app" installStInit st' (by simp [installStInit]) h

/-! ## C2 — `get_highest_version_matching_sha256b64` returns the *last*
match in iteration order, not the highest-numbered match

The loop overwrites `candidate_match` on every match and never compares
version numbers, so with the versions listed newest-first (the order the
backing registry returns them) the function returns the *lowest*-numbered
match.  This contradicts its own docstring ("Search the
available_versions for the highest version with a matching SHA-256"). -/

/-- C2: on a listing holding two versions that both match fingerprint
`"X"`, inserted in descending order (5 then 3), the scan returns version
3 — even though version 5 also matches and `5 > 3` — refuting the claim
that the highest-numbered matching version is returned. -/
theorem c2_returns_last_not_highest :
    get_highest_version_matching_sha256b64 avsDescending "X" = .ok (some (mkVersion 3 "X")) ∧
    version_matches (mkVersion 5 "X") "X" = true ∧
    (mkVersion 3 "X").Version < (mkVersion 5 "X").Version :=
  ⟨rfl, rfl, by decide⟩

/-! ## C6 — a version with valid-JSON but field-incomplete metadata makes
the scan raise `KeyError`

`get_description_encoded_metadata` only logs `logger.error` for missing
required fields and still returns the parsed object (contradicting the
class comment "If any of the metadata_required_fields are missing,
metadata will not be loaded from description"), after which
`get_metadata_sha256b64` evaluates `metadata['sha256b64']`, raising
`KeyError`; `get_highest_version_matching_sha256b64` has no try/except,
so the exception propagates. -/

/-- C6: with a version whose description is a JSON object lacking
`sha256b64` among the available versions, the scan raises `KeyError`
instead of treating the version as "no match" and continuing. -/
theorem c6_keyerror_on_missing_field :
    get_highest_version_matching_sha256b64 avsWithBroken "Z" =
      .error (.keyError "sha256b64") := rfl

/-! ## C5 — upload-if-new-else-reuse de-duplication in `cli_entry_point` -/

/-- Any successful scan result is either the initial candidate or a
matching version. -/
theorem ghvm_fold_mem (sha : String) :
    ∀ (avs : List (Nat × AwsLambdaLayerVersion)) (cand r : Option AwsLambdaLayerVersion),
      avs.foldlM (fun candidate_match kv =>
        (get_metadata_sha256b64 kv.2).map
          (fun m => if pyEqStrOpt sha m then some kv.2 else candidate_match)) cand = .ok r →
      r = cand ∨ ∃ v, r = some v ∧ version_matches v sha = true := by
  intro avs
  induction avs with
  | nil =>
    intro cand r h
    rw [List.foldlM_nil] at h
    cases h
    exact Or.inl rfl
  | cons kv avs ih =>
    intro cand r h
    rw [List.foldlM_cons] at h
    cases hm : get_metadata_sha256b64 kv.2 with
    | error e => rw [hm] at h; cases h
    | ok m =>
      rw [hm] at h
      replace h : avs.foldlM (fun candidate_match kv =>
          (get_metadata_sha256b64 kv.2).map
            (fun m => if pyEqStrOpt sha m then some kv.2 else candidate_match))
          (if pyEqStrOpt sha m then some kv.2 else cand) = .ok r := h
      rcases ih (if pyEqStrOpt sha m then some kv.2 else cand) r h with hr | hv
      · by_cases hmatch : pyEqStrOpt sha m = true
        · refine Or.inr ⟨kv.2, ?_, ?_⟩
          · rw [hr, if_pos hmatch]
          · unfold version_matches
            rw [hm]
            exact hmatch
        · refine Or.inl ?_
          rw [hr, if_neg hmatch]
      · exact Or.inr hv

/-- When some listed version matches, a successful scan returns a
matching version. -/
theorem ghvm_fold_exists (sha : String) :
    ∀ (avs : List (Nat × AwsLambdaLayerVersion)) (cand r : Option AwsLambdaLayerVersion),
      avs.foldlM (fun candidate_match kv =>
        (get_metadata_sha256b64 kv.2).map
          (fun m => if pyEqStrOpt sha m then some kv.2 else candidate_match)) cand = .ok r →
      (∃ kv ∈ avs, version_matches kv.2 sha = true) →
      ∃ v, r = some v ∧ version_matches v sha = true := by
  intro avs
  induction avs with
  | nil =>
    intro cand r _ hex
    rcases hex with ⟨kv, hkv, _⟩
    cases hkv
  | cons kv avs ih =>
    intro cand r h hex
    rw [List.foldlM_cons] at h
    cases hm : get_metadata_sha256b64 kv.2 with
    | error e => rw [hm] at h; cases h
    | ok m =>
      rw [hm] at h
      replace h : avs.foldlM (fun candidate_match kv =>
          (get_metadata_sha256b64 kv.2).map
            (fun m => if pyEqStrOpt sha m then some kv.2 else candidate_match))
          (if pyEqStrOpt sha m then some kv.2 else cand) = .ok r := h
      by_cases hmatch : pyEqStrOpt sha m = true
      · rw [if_pos hmatch] at h
        rcases ghvm_fold_mem sha avs (some kv.2) r h with hr | hv
        · exact ⟨kv.2, hr, by unfold version_matches; rw [hm]; exact hmatch⟩
        · exact hv
      · rw [if_neg hmatch] at h
        rcases hex with ⟨kw, hkwmem, hkwm⟩
        rcases List.mem_cons.mp hkwmem with rfl | hmem
        · unfold version_matches at hkwm
          rw [hm] at hkwm
          exact absurd hkwm hmatch
        · exact ih cand r h ⟨kw, hmem, hkwm⟩

/-- When no listed version matches, a successful scan returns the initial
candidate unchanged. -/
theorem ghvm_fold_none (sha : String) :
    ∀ (avs : List (Nat × AwsLambdaLayerVersion)) (cand r : Option AwsLambdaLayerVersion),
      (∀ kv ∈ avs, version_matches kv.2 sha = false) →
      avs.foldlM (fun candidate_match kv =>
        (get_metadata_sha256b64 kv.2).map
          (fun m => if pyEqStrOpt sha m then some kv.2 else candidate_match)) cand = .ok r →
      r = cand := by
  intro avs
  induction avs with
  | nil =>
    intro cand r _ h
    rw [List.foldlM_nil] at h
    cases h
    rfl
  | cons kv avs ih =>
    intro cand r hall h
    rw [List.foldlM_cons] at h
    cases hm : get_metadata_sha256b64 kv.2 with
    | error e => rw [hm] at h; cases h
    | ok m =>
      rw [hm] at h
      have hkv : version_matches kv.2 sha = false := hall kv (List.mem_cons_self kv avs)
      have hmf : pyEqStrOpt sha m = false := by
        unfold version_matches at hkv
        rw [hm] at hkv
        exact hkv
      replace h : avs.foldlM (fun candidate_match kv =>
          (get_metadata_sha256b64 kv.2).map
            (fun m => if pyEqStrOpt sha m then some kv.2 else candidate_match))
          (if pyEqStrOpt sha m then some kv.2 else cand) = .ok r := h
      rw [if_neg (by rw [hmf]; exact Bool.false_ne_true)] at h
      exact ih cand r (fun kv2 hm2 => hall kv2 (List.mem_cons_of_mem kv hm2)) h

/-- C5: in the layer branch of `cli_entry_point`, whenever the registry
contains a version whose description-encoded fingerprint equals the new
artifact's base64 fingerprint, every completed run reuses a matching
existing version, performing zero uploads and creating zero new layer
versions (an exception during the scan also uploads and publishes
nothing); a run uploads and publishes one new version only when no
listed version matches. -/
theorem c5_dedup_policy (avs : List (Nat × AwsLambdaLayerVersion)) (sha : String) :
    ((∃ kv ∈ avs, version_matches kv.2 sha = true) →
      ∀ outcome, cli_layer_dedup avs sha = .ok outcome →
        ∃ v, outcome = .reuse v ∧ version_matches v sha = true ∧
          new_versions_created outcome = 0 ∧ uploads_performed outcome = 0)
  ∧ ((∀ kv ∈ avs, version_matches kv.2 sha = false) →
      ∀ outcome, cli_layer_dedup avs sha = .ok outcome →
        outcome = .uploadAndPublish ∧ new_versions_created outcome = 1) := by
  constructor
  · intro hex outcome hok
    unfold cli_layer_dedup at hok
    cases hscan : get_highest_version_matching_sha256b64 avs sha with
    | error e => rw [hscan] at hok; cases hok
    | ok r =>
      rw [hscan] at hok
      obtain ⟨v, hr, hvm⟩ := ghvm_fold_exists sha avs none r hscan hex
      rw [hr] at hok
      cases hok
      exact ⟨v, rfl, hvm, rfl, rfl⟩
  · intro hall outcome hok
    unfold cli_layer_dedup at hok
    cases hscan : get_highest_version_matching_sha256b64 avs sha with
    | error e => rw [hscan] at hok; cases hok
    | ok r =>
      rw [hscan] at hok
      have hr := ghvm_fold_none sha avs none r hall hscan
      rw [hr] at hok
      cases hok
      exact ⟨rfl, rfl⟩

/-- Witness for C5: a one-version registry matching `"X"` is reused with
no upload and no publish; the same registry queried for `"Q"` has no
match and leads to one upload-and-publish. -/
theorem c5_dedup_policy_witness :
    cli_layer_dedup avsSingleMatch "X" = .ok (.reuse (mkVersion 1 "X")) ∧
    (∃ v, LayerPublishOutcome.reuse (mkVersion 1 "X") = .reuse v ∧
      version_matches v "X" = true ∧
      new_versions_created (.reuse (mkVersion 1 "X")) = 0 ∧
      uploads_performed (.reuse (mkVersion 1 "X")) = 0) ∧
    cli_layer_dedup avsSingleMatch "Q" = .ok .uploadAndPublish ∧
    new_versions_created .uploadAndPublish = 1 := by
  refine ⟨rfl, ?_, rfl, ?_⟩
  · exact (c5_dedup_policy avsSingleMatch "X").1
      ⟨(1, mkVersion 1 "X"), by decide, by decide⟩ (.reuse (mkVersion 1 "X")) rfl
  · exact ((c5_dedup_policy avsSingleMatch "Q").2 (by decide) .uploadAndPublish rfl).2

/-! ## C7 — the description string also carries builder fields

`update_metadata` merges `get_builder_metadata()` — `host`, `timestamp`
and `user` — into the dict before adding `sha256b64`, so the serialized
description contains more than the claimed field set.  (The unused class
attribute `layer_metadata_publish_fields` lists the claimed fields, but
`encode_metadata_for_description` serializes the whole dict.) -/

set_option maxHeartbeats 1000000 in
/-- C7 counterexample: on a build with full git metadata, the description
is a compact sorted-keys JSON object that *also* contains the keys
`host`, `timestamp` and `user` — `host` is not in the claimed field set,
refuting "containing exactly the fields branch, commit, describe, dirty,
untracked plus the base64 fingerprint ... and nothing else". -/
theorem c7_description_has_builder_fields :
    "host" ∈ (update_metadata (some gitSample) builderSample "SHA=").map Prod.fst ∧
    "host" ∉ spec_claimed_description_fields ∧
    encode_metadata_for_description (update_metadata (some gitSample) builderSample "SHA=") =
      "\x7b\"branch\":\"main\",\"commit\":\"c0ffee\",\"describe\":\"v1-g1\",\"dirty\":false," ++
      "\"host\":\"buildhost\",\"sha256b64\":\"SHA=\",\"timestamp\":1700000000," ++
      "\"untracked\":0,\"user\":\"ci\"\x7d" := by
  refine ⟨by decide, by decide, ?_⟩
  decide

set_option maxHeartbeats 1000000 in
/-- C7 (amended): the layer-version description is a compact JSON object
serialized with sorted keys and `,`/`:` separators, containing the git
fields (branch, commit, describe, dirty, untracked — branch and describe
omitted when git cannot provide them) *plus the builder fields host,
timestamp and user* plus the base64 fingerprint under `sha256b64`; and
the serialization depends only on the key-value mapping: identical
metadata — in any dict insertion order — yields byte-for-byte-identical
description strings. -/
theorem c7_amended_description_fields :
    (∀ (br cm de : String) (dt : Bool) (ut : Nat) (b : BuilderMetadata) (sha : String),
      (update_metadata (some ⟨some br, cm, some de, dt, ut⟩) b sha).map Prod.fst =
        ["branch", "commit", "describe", "dirty", "untracked", "host", "timestamp", "user",
         "sha256b64"])
  ∧ (∀ d1 d2 : List (String × JVal), d1.Perm d2 → (d1.map Prod.fst).Nodup →
      json_dumps_sorted d1 = json_dumps_sorted d2) := by
  constructor
  · intro br cm de dt ut b sha
    simp [update_metadata, git_metadata_fields, builder_metadata_fields, dictUpdate]
  · intro d1 d2 hperm hnd
    unfold json_dumps_sorted
    have hkeys : pySorted (d1.map Prod.fst) = pySorted (d2.map Prod.fst) :=
      pySorted_eq_of_perm (hperm.map Prod.fst)
    have hlook : ∀ k, pairLookup d1 k = pairLookup d2 k := pairLookup_perm hperm hnd
    rw [hkeys,
      List.map_congr_left (l := pySorted (d2.map Prod.fst))
        (f := fun k => "\x22" ++ k ++ "\x22:" ++ dumpJVal ((pairLookup d1 k).getD (JVal.b false)))
        (g := fun k => "\x22" ++ k ++ "\x22:" ++ dumpJVal ((pairLookup d2 k).getD (JVal.b false)))
        (fun k _ => by simp only [hlook])]

/-- Witness for C7 (amended), at a concrete build and a concrete pair of
reordered dicts. -/
theorem c7_amended_description_fields_witness :
    ((update_metadata (some gitSample) builderSample "SHA=").map Prod.fst =
      ["branch", "commit", "describe", "dirty", "untracked", "host", "timestamp", "user",
       "sha256b64"]) ∧
    json_dumps_sorted [("b", JVal.n 1), ("a", JVal.s "v")] =
      json_dumps_sorted [("a", JVal.s "v"), ("b", JVal.n 1)] := by
  constructor
  · exact c7_amended_description_fields.1 "main" "c0ffee" "v1-g1" false 0 builderSample "SHA="
  · exact c7_amended_description_fields.2 _ _ (by decide) (by decide)

/-! ## C10 — `get_lambda_layer` returns the maximal version or raises -/

/-- The `highest_version` component of the scan is the `maxStep` fold of
the flattened listing. -/
theorem layer_scan_snd (pages : List (List AwsLambdaLayerVersion)) :
    (layer_scan pages).2 = pages.flatten.foldl maxStep none := by
  have hflat : layer_scan pages = pages.flatten.foldl scanVersion ([], none) :=
    (List.foldl_flatten scanVersion ([], none) pages).symm
  rw [hflat]
  have hsnd : ∀ (l : List AwsLambdaLayerVersion)
      (acc : List (Nat × AwsLambdaLayerVersion) × Option AwsLambdaLayerVersion),
      (l.foldl scanVersion acc).2 = l.foldl maxStep acc.2 := by
    intro l
    induction l with
    | nil => intro acc; rfl
    | cons a l ih =>
      intro acc
      rw [List.foldl_cons, List.foldl_cons]
      exact ih _
  exact hsnd pages.flatten ([], none)

/-- Once some version has been seen, the `highest_version` tracker never
returns to `None`. -/
theorem maxStep_fold_ne_none :
    ∀ (l : List AwsLambdaLayerVersion) (v : AwsLambdaLayerVersion),
      l.foldl maxStep (some v) ≠ none := by
  intro l
  induction l with
  | nil => intro v h; cases h
  | cons a l ih =>
    intro v h
    rw [List.foldl_cons] at h
    have hw : ∃ w, maxStep (some v) a = some w := by
      unfold maxStep
      by_cases hlt : v.Version < a.Version
      · exact ⟨a, if_pos hlt⟩
      · exact ⟨v, if_neg hlt⟩
    obtain ⟨w, hw⟩ := hw
    rw [hw] at h
    exact ih w h

/-- The `maxStep` fold yields a maximal element: every scanned record has
a smaller-or-equal version number, the result comes from the accumulator
or the list, and it dominates any initial accumulator. -/
theorem maxStep_fold_spec :
    ∀ (l : List AwsLambdaLayerVersion) (o : Option AwsLambdaLayerVersion)
      (hv : AwsLambdaLayerVersion), l.foldl maxStep o = some hv →
      (∀ r ∈ l, r.Version ≤ hv.Version) ∧ (o = some hv ∨ hv ∈ l) ∧
      (∀ h0, o = some h0 → h0.Version ≤ hv.Version) := by
  intro l
  induction l with
  | nil =>
    intro o hv h
    rw [List.foldl_nil] at h
    refine ⟨fun r hr => absurd hr (List.not_mem_nil r), Or.inl h, fun h0 h0e => ?_⟩
    rw [h0e] at h
    cases h
    exact Nat.le_refl _
  | cons a l ih =>
    intro o hv h
    rw [List.foldl_cons] at h
    obtain ⟨hall, hmem, hmono⟩ := ih (maxStep o a) hv h
    have hstep : a.Version ≤ hv.Version := by
      cases o with
      | none => exact hmono a rfl
      | some h0 =>
        by_cases hlt : h0.Version < a.Version
        · refine hmono a ?_
          unfold maxStep
          exact if_pos hlt
        · have h1 : h0.Version ≤ hv.Version := by
            refine hmono h0 ?_
            unfold maxStep
            exact if_neg hlt
          exact Nat.le_trans (Nat.le_of_not_lt hlt) h1
    refine ⟨?_, ?_, ?_⟩
    · intro r hr
      rcases List.mem_cons.mp hr with rfl | hr2
      · exact hstep
      · exact hall r hr2
    · rcases hmem with hm | hm
      · cases o with
        | none =>
          have ha : some a = some hv := hm
          cases ha
          exact Or.inr (List.mem_cons_self a l)
        | some h0 =>
          replace hm : (if h0.Version < a.Version then some a else some h0) = some hv := hm
          by_cases hlt : h0.Version < a.Version
          · rw [if_pos hlt] at hm
            cases hm
            exact Or.inr (List.mem_cons_self a l)
          · rw [if_neg hlt] at hm
            cases hm
            exact Or.inl rfl
      · exact Or.inr (List.mem_cons_of_mem a hm)
    · intro h0 h0e
      subst h0e
      by_cases hlt : h0.Version < a.Version
      · exact Nat.le_trans (Nat.le_of_lt hlt) hstep
      · refine hmono h0 ?_
        unfold maxStep
        exact if_neg hlt

/-- C10: `get_lambda_layer` raises `AttributeError` when the listing
contains no versions; with at least one version it returns an object
whose `highest_version` is a listed record with the maximal version
number, and the summary fields copied onto the layer (Version,
Description, CreatedDate, CompatibleRuntimes, LicenseInfo,
CompatibleArchitectures) come from that maximal record. -/
theorem c10_get_lambda_layer (name : String) (pages : List (List AwsLambdaLayerVersion)) :
    (pages.flatten = [] → get_lambda_layer name pages = .error .attributeError)
  ∧ (pages.flatten ≠ [] →
      ∃ L hv, get_lambda_layer name pages = .ok L ∧ L.highest_version = some hv ∧
        hv ∈ pages.flatten ∧ (∀ r ∈ pages.flatten, r.Version ≤ hv.Version) ∧
        L.Version = hv.Version ∧ L.Description = hv.Description ∧
        L.CreatedDate = hv.CreatedDate ∧ L.CompatibleRuntimes = hv.CompatibleRuntimes ∧
        L.LicenseInfo = hv.LicenseInfo ∧
        L.CompatibleArchitectures = hv.CompatibleArchitectures) := by
  constructor
  · intro hflat
    unfold get_lambda_layer
    rw [layer_scan_snd, hflat]
    rfl
  · intro hflat
    obtain ⟨hv, hhv⟩ : ∃ hv, pages.flatten.foldl maxStep none = some hv := by
      rcases hfl : pages.flatten with _ | ⟨a, l⟩
      · exact absurd hfl hflat
      · cases hres : (a :: l).foldl maxStep none with
        | none =>
          rw [List.foldl_cons] at hres
          exact absurd hres (maxStep_fold_ne_none l a)
        | some hv => exact ⟨hv, rfl⟩
    obtain ⟨hall, hmem, _⟩ := maxStep_fold_spec pages.flatten none hv hhv
    have hmem2 : hv ∈ pages.flatten := by
      rcases hmem with hm | hm
      · cases hm
      · exact hm
    have hL : get_lambda_layer name pages =
        .ok (AwsLambdaLayer.mk name (layer_scan pages).1 (some hv) hv.Version
          hv.Description hv.CreatedDate hv.CompatibleRuntimes hv.LicenseInfo
          hv.CompatibleArchitectures) := by
      unfold get_lambda_layer
      rw [layer_scan_snd, hhv]
    exact ⟨_, hv, hL, rfl, hmem2, hall, rfl, rfl, rfl, rfl, rfl, rfl⟩

/-- Witness for C10: an empty listing raises; a three-version listing
returns version 9 with its fields copied. -/
theorem c10_get_lambda_layer_witness :
    get_lambda_layer "empty" [[], []] = .error .attributeError ∧
    (∃ L hv,
      get_lambda_layer "mylayer" [[mkVersion 3 "A"], [mkVersion 9 "B", mkVersion 4 "C"]] =
        .ok L ∧
      L.highest_version = some hv ∧
      hv ∈ ([[mkVersion 3 "A"], [mkVersion 9 "B", mkVersion 4 "C"]] :
        List (List AwsLambdaLayerVersion)).flatten ∧
      (∀ r ∈ ([[mkVersion 3 "A"], [mkVersion 9 "B", mkVersion 4 "C"]] :
        List (List AwsLambdaLayerVersion)).flatten, r.Version ≤ hv.Version) ∧
      L.Version = hv.Version ∧ L.Description = hv.Description ∧
      L.CreatedDate = hv.CreatedDate ∧ L.CompatibleRuntimes = hv.CompatibleRuntimes ∧
      L.LicenseInfo = hv.LicenseInfo ∧
      L.CompatibleArchitectures = hv.CompatibleArchitectures) :=
  ⟨(c10_get_lambda_layer "empty" [[], []]).1 rfl,
   (c10_get_lambda_layer "mylayer" [[mkVersion 3 "A"], [mkVersion 9 "B", mkVersion 4 "C"]]).2
     (by decide)⟩

end LambdaZip
